import Mathlib

/-!
# snet-daemon: escrow payment validation and the channel store

A shallow embedding of `blockchain/escrow.go` (the escrow payment handler) and of the
byte-level store exercised by `etcddb/etcddb_test.go`, followed by theorems about them.

Conventions of the embedding
* `*big.Int` is `Int`, `[]byte` is `List Byte`, `common.Address` is a 20-byte string,
  `common.Hash` a 32-byte string, `time.Time` an instant counted in nanoseconds.
* Go's `error` results are `Option`/`Except` values; `nil` is `none`.
* The storage behind the handler is explicit state: the handler takes the store before the
  call and returns the store after it.
* Library code (go-ethereum `common`/`crypto`, grpc `status`, `math/big`) is given the
  behaviour its documentation states; cryptographic primitives stay parameters.
* The log entries the handler writes are part of what a call produces: they tell the
  rejections apart even when an amount validator returns a status that looks like one of
  the handler's own.
* Not modelled: nil pointers (a storage returning a nil record together with a nil error,
  a nil `*big.Int`), which make the Go code panic, and the fields logrus attaches with
  `WithField`.
-/

namespace Blockchain

/-! ## Bytes, big integers, hashes and addresses -/

abbrev Byte := Fin 256

/-- Base-256 digits of `n`, least significant first, without leading zeros; the first
argument bounds the number of digits produced. -/
def bytesLE : Nat → Nat → List Byte
  | 0, _ => []
  | fuel + 1, n =>
    if n = 0 then [] else ⟨n % 256, Nat.mod_lt n (by decide)⟩ :: bytesLE fuel (n / 256)

/-- Mirror of `(*big.Int).Bytes`: the absolute value of `x` as a big-endian byte string
without leading zeros (empty for zero). -/
def bigBytes (x : Int) : List Byte :=
  (bytesLE x.natAbs x.natAbs).reverse

/-- Length of a `common.Hash`. -/
def HashLength : Nat := 32

/-- Length of a `common.Address`. -/
def AddressLength : Nat := 20

/-- Mirror of `common.Hash`: `[32]byte`. -/
abbrev Hash := { l : List Byte // l.length = HashLength }

/-- Mirror of `common.Address`: `[20]byte`. -/
abbrev Address := { l : List Byte // l.length = AddressLength }

/-- The zero value of `common.Address`. -/
def zeroAddress : Address := ⟨List.replicate AddressLength 0, by simp⟩

/-- Mirror of `common.Address.Bytes`: the 20 bytes of the address. -/
def Address.Bytes (a : Address) : List Byte := a.val

/-- Mirror of `common.Hash.Bytes`: the 32 bytes of the hash. -/
def Hash.Bytes (h : Hash) : List Byte := h.val

/-- Mirror of `Hash.SetBytes` on a zero hash: when `b` is longer than 32 bytes it is cropped
from the left (`b = b[len(b)-HashLength:]`), then copied right-aligned
(`copy(h[HashLength-len(b):], b)`). -/
def setBytes (b : List Byte) : List Byte :=
  let b := if b.length > HashLength then b.drop (b.length - HashLength) else b
  List.replicate (HashLength - b.length) 0 ++ b

/-- Mirror of `common.BytesToHash`. -/
def BytesToHash (b : List Byte) : Hash :=
  ⟨setBytes b, by
    unfold setBytes
    by_cases h : b.length > HashLength
    · simp only [h, if_true, List.length_append, List.length_replicate, List.length_drop]
      unfold HashLength at *
      omega
    · simp only [h, if_false, List.length_append, List.length_replicate]
      unfold HashLength at *
      omega⟩

/-- Mirror of `common.BigToHash`: `BytesToHash(b.Bytes())`. -/
def BigToHash (b : Int) : Hash := BytesToHash (bigBytes b)

/-- Mirror of `bigIntToBytes` (escrow.go): `common.BigToHash(value).Bytes()`. -/
def bigIntToBytes (value : Int) : List Byte := (BigToHash value).Bytes

/-- The number a byte string denotes when read least significant byte first. -/
def leValue : List Byte → Nat
  | [] => 0
  | b :: l => b.val + 256 * leValue l

/-- The number a byte string denotes when read big-endian. -/
def beValue (l : List Byte) : Nat := leValue l.reverse

/-! ## Data model of escrow.go -/

/-- Mirror of `time.Time`, reduced to the instant it denotes (nanoseconds). -/
structure Time where
  nanos : Int
deriving DecidableEq, Repr

/-- Mirror of `Time.Before`: reports whether the instant `t` is before `u`. -/
def Time.Before (t u : Time) : Bool := decide (t.nanos < u.nanos)

/-- Mirror of `(*big.Int).Cmp`: -1 if `x < y`, 0 if `x == y`, +1 if `x > y`. -/
def Cmp (x y : Int) : Int := if x < y then -1 else if x = y then 0 else 1

structure PaymentChannelKey where
  Id : Int
  Nonce : Int
deriving DecidableEq, Repr

/-- Mirror of `type PaymentChannelState int`. -/
abbrev PaymentChannelState := Int

def Open : PaymentChannelState := 0

def Closed : PaymentChannelState := 1

structure PaymentChannelData where
  State : PaymentChannelState
  Sender : Address
  FullAmount : Int
  Expiration : Time
  AuthorizedAmount : Int
  Signature : List Byte
deriving DecidableEq, Repr

/-- Values of Go's `error` interface handed to the handler by its collaborators (storage,
signature recovery). The handler only compares them with `nil` and attaches them to log
entries. -/
inductive GoError
  | notFound
  | unavailable
  | timeout
  | conflict
  | invalidSignature
deriving DecidableEq, Repr

/-- Mirror of `PaymentChannelStorage`, over an explicit store state `σ`. `Get` reads the
store; `CompareAndSwap` returns its `err` (`none` for `nil`) and the store it leaves. -/
structure PaymentChannelStorage (σ : Type) where
  Get : σ → PaymentChannelKey → Except GoError PaymentChannelData
  CompareAndSwap : σ → PaymentChannelKey → PaymentChannelData → PaymentChannelData →
    Option GoError × σ

structure PaymentData where
  Income : Int
deriving DecidableEq, Repr

/-- Mirror of grpc `codes.Code`. -/
inductive Code
  | OK | Canceled | Unknown | InvalidArgument | DeadlineExceeded | NotFound
  | AlreadyExists | PermissionDenied | ResourceExhausted | FailedPrecondition | Aborted
  | OutOfRange | Unimplemented | Internal | Unavailable | DataLoss | Unauthenticated
deriving DecidableEq, Repr

/-- Message of a status: the format string used in escrow.go together with its arguments
(the text is not rendered), or a free text chosen by the amount validator. -/
inductive Message
  /-- Format `payment channel "%v" not found`. -/
  | channelNotFound (key : PaymentChannelKey)
  /-- Format `payment channel "%v" is not opened`. -/
  | channelNotOpened (key : PaymentChannelKey)
  /-- Text `payment signature is not valid`. -/
  | signatureNotValid
  /-- Text `payment is not signed by channel sender`. -/
  | notSignedBySender
  /-- Format `payment channel is expired since "%v"`. -/
  | channelExpired (expiration : Time)
  /-- Format `not enough tokens on payment channel, channel amount: %v, payment amount: %v `. -/
  | notEnoughTokens (channelAmount paymentAmount : Int)
  /-- Text `unable to store new payment channel state`. -/
  | unableToStore
  | text (s : String)
deriving DecidableEq, Repr

/-- Mirror of grpc `status.Status`: a code and a message. -/
structure Status where
  code : Code
  message : Message
deriving DecidableEq, Repr

/-- Mirror of `(*Status).Err`: "Err returns an immutable error representing s; returns nil
if s.Code() is OK." The error is represented by the status it wraps. -/
def Status.Err (s : Status) : Option Status :=
  if s.code = Code.OK then none else some s

/-- Mirror of `status.Errorf` and `status.Error`: `New(c, msg).Err()`. -/
def Errorf (c : Code) (m : Message) : Option Status := (Status.mk c m).Err

/-- Mirror of `AmountValidator`: `Validate` returns a `*status.Status`, `nil` being `none`. -/
structure AmountValidator where
  Validate : PaymentData → Option Status

/-- Mirror of `ecdsa.PublicKey`, reduced to the point coordinates. -/
structure PublicKey where
  X : Int
  Y : Int
deriving DecidableEq, Repr

/-- What escrow.go takes from outside the given sources: the go-ethereum `crypto` primitives
it calls and the package constant `hashPrefix32Bytes`. `Keccak256` is applied to the
concatenation of the arguments of the Go call, which feeds them to one hash state in order. -/
structure Externals where
  Keccak256 : List Byte → List Byte
  SigToPub : List Byte → List Byte → Except GoError PublicKey
  PubkeyToAddress : PublicKey → Address
  hashPrefix32Bytes : List Byte

/-- Modelled from the spec: the declaration of `Processor` is outside the given sources; of
it escrow.go reads only `escrowContractAddress`, "the escrow contract address used in the
signature digest", an account address (`common.Address`) like `Sender`. -/
structure Processor where
  escrowContractAddress : Address

/-- Mirror of `escrowPaymentHandler` (the request metadata `md` is not read by the
functions embedded here). -/
structure escrowPaymentHandler (σ : Type) where
  storage : PaymentChannelStorage σ
  processor : Processor
  amountValidator : AmountValidator

structure paymentData where
  channelKey : PaymentChannelKey
  amount : Int
  signature : List Byte
deriving DecidableEq, Repr

/-- Level of a logrus entry. -/
inductive Level
  | warn
  | error
deriving DecidableEq, Repr

/-- One logrus entry written by the handler: level, message and the error attached with
`WithError` or as the `err` field (the other fields are left out). -/
structure LogEntry where
  level : Level
  msg : String
  err : Option GoError
deriving DecidableEq, Repr

/-- What one call of the handler produces: the returned `error`, the store it leaves and
the log entries it wrote, oldest first. -/
structure Outcome (σ : Type) where
  err : Option Status
  store : σ
  log : List LogEntry

/-! ## The handler -/

/-- The byte string of the inner `crypto.Keccak256` call of `getSignerAddressFromPayment`:
its four arguments in order. -/
def paymentMessage (contract : Address) (key : PaymentChannelKey) (amount : Int) : List Byte :=
  contract.Bytes ++ bigIntToBytes key.Id ++ bigIntToBytes key.Nonce ++ bigIntToBytes amount

/-- The local `paymentHash` of `getSignerAddressFromPayment`. -/
def paymentHash {σ : Type} (x : Externals) (h : escrowPaymentHandler σ)
    (payment : paymentData) : List Byte :=
  x.Keccak256 (x.hashPrefix32Bytes ++
    x.Keccak256 (paymentMessage h.processor.escrowContractAddress payment.channelKey
      payment.amount))

/-- Mirror of `getSignerAddressFromPayment`: the recovered signer or the error of
`crypto.SigToPub`, and the log entries written. -/
def getSignerAddressFromPayment {σ : Type} (x : Externals) (h : escrowPaymentHandler σ)
    (payment : paymentData) : Except GoError Address × List LogEntry :=
  match x.SigToPub (paymentHash x h payment) payment.signature with
  | .error err => (.error err, [⟨.warn, "Incorrect signature", some err⟩])
  | .ok publicKey => (.ok (x.PubkeyToAddress publicKey), [])

/-- Mirror of `validatePaymentInternal`. `now` is the value `time.Now()` returns, `s` the
store the call starts from. The new state handed to `CompareAndSwap` is the struct literal
of the source, which names five of the six fields of `PaymentChannelData`: `Sender` is not
among them and so has its zero value. -/
def validatePaymentInternal {σ : Type} (x : Externals) (h : escrowPaymentHandler σ)
    (now : Time) (s : σ) (payment : paymentData) : Outcome σ :=
  match h.storage.Get s payment.channelKey with
  | .error err =>
    ⟨Errorf .FailedPrecondition (.channelNotFound payment.channelKey), s,
      [⟨.warn, "Payment channel not found", some err⟩]⟩
  | .ok paymentChannel =>
    if paymentChannel.State ≠ Open then
      ⟨Errorf .FailedPrecondition (.channelNotOpened payment.channelKey), s,
        [⟨.warn, "Payment channel is not opened", none⟩]⟩
    else
      match getSignerAddressFromPayment x h payment with
      | (.error err, l) =>
        ⟨Errorf .Unauthenticated .signatureNotValid, s,
          l ++ [⟨.warn, "Unable to get public key from payment", some err⟩]⟩
      | (.ok signerAddress, l) =>
        if signerAddress ≠ paymentChannel.Sender then
          ⟨Errorf .Unauthenticated .notSignedBySender, s,
            l ++ [⟨.warn, "Channel sender is not equal to payment signer", none⟩]⟩
        else if paymentChannel.Expiration.Before now then
          ⟨Errorf .FailedPrecondition (.channelExpired paymentChannel.Expiration), s,
            l ++ [⟨.warn, "Channel is expired", none⟩]⟩
        else if Cmp paymentChannel.FullAmount payment.amount < 0 then
          ⟨Errorf .FailedPrecondition
              (.notEnoughTokens paymentChannel.FullAmount payment.amount), s,
            l ++ [⟨.warn, "Not enough tokens on payment channel", none⟩]⟩
        else
          let income := payment.amount - paymentChannel.AuthorizedAmount
          match h.amountValidator.Validate ⟨income⟩ with
          | some st => ⟨st.Err, s, l⟩
          | none =>
            match h.storage.CompareAndSwap s payment.channelKey paymentChannel
                { State := paymentChannel.State
                  Sender := zeroAddress
                  FullAmount := paymentChannel.FullAmount
                  Expiration := paymentChannel.Expiration
                  AuthorizedAmount := payment.amount
                  Signature := payment.signature } with
            | (some err, s') =>
              ⟨Errorf .Internal .unableToStore, s',
                l ++ [⟨.error, "Unable to store new payment channel state", some err⟩]⟩
            | (none, s') => ⟨none, s', l⟩

/-! ## Storages -/

/-- One invocation of `CompareAndSwap`, with its three arguments. -/
structure CasCall where
  key : PaymentChannelKey
  prevState : PaymentChannelData
  newState : PaymentChannelData
deriving DecidableEq, Repr

/-- A storage that behaves as `st` and also keeps the list of the `CompareAndSwap`
invocations made on it, oldest first. -/
def PaymentChannelStorage.recording {σ : Type} (st : PaymentChannelStorage σ) :
    PaymentChannelStorage (σ × List CasCall) where
  Get s key := st.Get s.1 key
  CompareAndSwap s key prevState newState :=
    ((st.CompareAndSwap s.1 key prevState newState).1,
      ((st.CompareAndSwap s.1 key prevState newState).2, s.2 ++ [⟨key, prevState, newState⟩]))

/-- The handler `h` with its storage replaced by the recording one. -/
def escrowPaymentHandler.recording {σ : Type} (h : escrowPaymentHandler σ) :
    escrowPaymentHandler (σ × List CasCall) where
  storage := h.storage.recording
  processor := h.processor
  amountValidator := h.amountValidator

/-- A storage as one request sees it while other clients of the store act between its
`Get` and its `CompareAndSwap`: `others` is what they do to the store in between. -/
def PaymentChannelStorage.interleaved {σ : Type} (st : PaymentChannelStorage σ)
    (others : σ → σ) : PaymentChannelStorage σ where
  Get := st.Get
  CompareAndSwap s key prevState newState := st.CompareAndSwap (others s) key prevState newState

/-- State of the in-memory channel store: the record kept under each key, and whether the
store can be reached. -/
structure MemState where
  records : PaymentChannelKey → Option PaymentChannelData
  up : Bool

/-- Modelled from the spec: the implementation of `PaymentChannelStorage` is outside the
given sources. "`Get(key) -> record | notFoundError`"; `CompareAndSwap` "atomically
replace[s] the stored value for `key` with `desired` iff the currently stored value equals
`expected` (structural equality of the full record)". The interface of escrow.go returns
only `err`, so a mismatch is reported as an error, and so is a store that cannot be
reached. -/
def memStorage : PaymentChannelStorage MemState where
  Get s key :=
    if s.up then
      match s.records key with
      | some d => .ok d
      | none => .error .notFound
    else .error .unavailable
  CompareAndSwap s key prevState newState :=
    if s.up then
      if s.records key = some prevState then
        (none, { s with records := fun k => if k = key then some newState else s.records k })
      else (some .conflict, s)
    else (some .unavailable, s)

/-! ## Test fixtures -/

/-- Stand-ins for the cryptographic primitives in concrete runs: the hash is the identity,
the public key is read off the first byte of the signature (no signature, no key) and the
address repeats that byte. -/
def testExternals : Externals where
  Keccak256 b := b
  SigToPub _ sig :=
    match sig with
    | [] => .error .invalidSignature
    | b :: _ => .ok ⟨b.val, 0⟩
  PubkeyToAddress pk := ⟨List.replicate AddressLength (Fin.ofNat pk.X.toNat), by simp⟩
  hashPrefix32Bytes := [0x19]

/-- The account `0xAAA…`. -/
def alice : Address := ⟨List.replicate AddressLength 0xAA, by simp⟩

def testKey : PaymentChannelKey := ⟨1, 1⟩

/-- The channel of the concrete scenario of the specification: open, sender `0xAAA…`,
`fullAmount = 100`, `authorizedAmount = 40`, expiring at instant 3600. -/
def testChannel : PaymentChannelData where
  State := Open
  Sender := alice
  FullAmount := 100
  Expiration := ⟨3600⟩
  AuthorizedAmount := 40
  Signature := []

/-- A reachable store holding `testChannel` under `testKey` and nothing else. -/
def testStore : MemState where
  records k := if k = testKey then some testChannel else none
  up := true

/-- A payment on `testKey` for the given amount, signed by `0xAAA…`. -/
def testPayment (amount : Int) : paymentData := ⟨testKey, amount, [0xAA]⟩

/-- An amount validator that accepts every income. -/
def acceptAll : AmountValidator := ⟨fun _ => none⟩

/-- An amount validator that rejects negative incomes and accepts the others. -/
def rejectNegative : AmountValidator :=
  ⟨fun d => if d.Income < 0 then some ⟨.Unauthenticated, .text "negative income"⟩ else none⟩

/-- An amount validator that answers every income with a status of code `OK`. -/
def answerOK : AmountValidator := ⟨fun _ => some ⟨.OK, .text "accepted"⟩⟩

/-- A handler on the in-memory store. -/
def testHandler (v : AmountValidator) : escrowPaymentHandler MemState where
  storage := memStorage
  processor := ⟨zeroAddress⟩
  amountValidator := v

/-- The call `validatePaymentInternal` watched through a recording storage that starts with
no invocation recorded: `(observed ..).store.1` is the store the call leaves and
`(observed ..).store.2` the `CompareAndSwap` invocations it made. -/
def observed {σ : Type} (x : Externals) (h : escrowPaymentHandler σ) (now : Time) (s : σ)
    (payment : paymentData) : Outcome (σ × List CasCall) :=
  validatePaymentInternal x h.recording now (s, []) payment

/-- The record `validatePaymentInternal` hands to `CompareAndSwap` as new state, for the
record `paymentChannel` it read (the struct literal of escrow.go, lines 143-149). -/
def newChannelState (paymentChannel : PaymentChannelData) (payment : paymentData) :
    PaymentChannelData where
  State := paymentChannel.State
  Sender := zeroAddress
  FullAmount := paymentChannel.FullAmount
  Expiration := paymentChannel.Expiration
  AuthorizedAmount := payment.amount
  Signature := payment.signature

/-- A run of successive calls of `validatePaymentInternal`, each with its own clock reading,
threading the store from one call to the next. -/
def validateAll {σ : Type} (x : Externals) (h : escrowPaymentHandler σ) :
    List (Time × paymentData) → σ → σ
  | [], s => s
  | (now, payment) :: rest, s =>
    validateAll x h rest (validatePaymentInternal x h now s payment).store

/-- What another request does to the store when it commits an authorization of 50 on
`testKey` while this one is between its `Get` and its `CompareAndSwap`. -/
def concurrentUpdate (s : MemState) : MemState :=
  { s with records := fun k =>
      if k = testKey then some { testChannel with AuthorizedAmount := 50 } else s.records k }

/-- The store becoming unreachable while a request is between its `Get` and its
`CompareAndSwap`. -/
def outage (s : MemState) : MemState := { s with up := false }

/-- A handler on the in-memory store with other activity on the store in between, and a
validator that accepts every income. -/
def racingHandler (others : MemState → MemState) : escrowPaymentHandler MemState where
  storage := memStorage.interleaved others
  processor := ⟨zeroAddress⟩
  amountValidator := acceptAll

/-- An unreachable store holding what `testStore` holds. -/
def downStore : MemState := { testStore with up := false }

/-! ## The pipeline, stage by stage -/

/-- The stages of the validation pipeline. -/
inductive Stage
  | lookup
  | state
  | signatureRecovery
  | senderMatch
  | expiration
  | budget
  | amountPolicy
  | commit
deriving DecidableEq, Repr

/-- The fixed order of the stages. -/
def stageOrder : List Stage :=
  [.lookup, .state, .signatureRecovery, .senderMatch, .expiration, .budget, .amountPolicy,
    .commit]

/-- Whether a stage, taken by itself, fails for the payment on the store `s` at time `now`,
in the words of the specification: the lookup when `Get` returns an error; the state check
when the record is not `Open`; signature recovery when no signer is recovered; the sender
match when the recovered signer is not the `Sender`; expiration when `Expiration` is before
`now`; the budget when `amount > FullAmount`; the amount policy when it answers the income
`amount - AuthorizedAmount` with a status; the commit when `CompareAndSwap` of the record
read against the candidate record returns an error. -/
def stageFails {σ : Type} (x : Externals) (h : escrowPaymentHandler σ) (now : Time) (s : σ)
    (payment : paymentData) : Stage → Bool
  | .lookup =>
    match h.storage.Get s payment.channelKey with
    | .error _ => true
    | .ok _ => false
  | .state =>
    match h.storage.Get s payment.channelKey with
    | .ok r => decide (r.State ≠ Open)
    | .error _ => false
  | .signatureRecovery =>
    match (getSignerAddressFromPayment x h payment).1 with
    | .error _ => true
    | .ok _ => false
  | .senderMatch =>
    match h.storage.Get s payment.channelKey, (getSignerAddressFromPayment x h payment).1 with
    | .ok r, .ok signer => decide (signer ≠ r.Sender)
    | _, _ => false
  | .expiration =>
    match h.storage.Get s payment.channelKey with
    | .ok r => decide (r.Expiration.nanos < now.nanos)
    | .error _ => false
  | .budget =>
    match h.storage.Get s payment.channelKey with
    | .ok r => decide (payment.amount > r.FullAmount)
    | .error _ => false
  | .amountPolicy =>
    match h.storage.Get s payment.channelKey with
    | .ok r => (h.amountValidator.Validate ⟨payment.amount - r.AuthorizedAmount⟩).isSome
    | .error _ => false
  | .commit =>
    match h.storage.Get s payment.channelKey with
    | .ok r =>
      (h.storage.CompareAndSwap s payment.channelKey r (newChannelState r payment)).1.isSome
    | .error _ => false

/-- The first stage, in the fixed order, that fails; `none` when no stage fails. -/
def firstFailing {σ : Type} (x : Externals) (h : escrowPaymentHandler σ) (now : Time) (s : σ)
    (payment : paymentData) : Option Stage :=
  stageOrder.find? (stageFails x h now s payment)

/-- A store holding under `testKey` the test channel in state `Closed`. -/
def closedStore : MemState where
  records k := if k = testKey then some { testChannel with State := Closed } else none
  up := true

/-- A handler whose store becomes unreachable before the commit and whose validator answers
every income with a status of code `OK`. -/
def okHandlerOnFailingStore : escrowPaymentHandler MemState where
  storage := memStorage.interleaved outage
  processor := ⟨zeroAddress⟩
  amountValidator := answerOK

end Blockchain

namespace Etcddb

open Blockchain

/-- Modelled from the spec: the etcd client of package `etcddb` is outside the given
sources, which hold only its test. The store maps opaque byte-string keys to byte-string
values; this is its content as seen through the client. -/
structure EtcdClient where
  kv : List Byte → Option (List Byte)

/-- Modelled from the spec: `Get(key)` at the raw byte-string level; the test reads an
empty value, and no error, for a key that was deleted. -/
def EtcdClient.Get (c : EtcdClient) (key : List Byte) : List Byte × Option GoError :=
  ((c.kv key).getD [], none)

/-- Modelled from the spec: `Put(key, value)` stores `value` under `key`. -/
def EtcdClient.Put (c : EtcdClient) (key value : List Byte) : Option GoError × EtcdClient :=
  (none, ⟨fun k => if k = key then some value else c.kv k⟩)

/-- Modelled from the spec: `Delete(key)` removes what is stored under `key`. -/
def EtcdClient.Delete (c : EtcdClient) (key : List Byte) : Option GoError × EtcdClient :=
  (none, ⟨fun k => if k = key then none else c.kv k⟩)

/-- Modelled from the spec: `CompareAndSet(key, expect, update)` "atomically replace[s] the
stored value for `key` with `desired` iff the currently stored value equals `expected`";
it "returns `ok=false` (not an error) on mismatch". The result is `ok`, `err` and the
store left. -/
def EtcdClient.CompareAndSet (c : EtcdClient) (key expect update : List Byte) :
    (Bool × Option GoError) × EtcdClient :=
  if c.kv key = some expect then
    ((true, none), ⟨fun k => if k = key then some update else c.kv k⟩)
  else ((false, none), c)

/-- An empty store. -/
def emptyClient : EtcdClient := ⟨fun _ => none⟩

/-- The bytes of the string `key`. -/
def keyBytes : List Byte := [107, 101, 121]

/-- The bytes of the string `expect`. -/
def expectBytes : List Byte := [101, 120, 112, 101, 99, 116]

/-- The bytes of the string `update`. -/
def updateBytes : List Byte := [117, 112, 100, 97, 116, 101]

end Etcddb

namespace Blockchain

/-! ## Basic facts -/

theorem setBytes_length (b : List Byte) : (setBytes b).length = HashLength :=
  (BytesToHash b).property

theorem bigIntToBytes_length (v : Int) : (bigIntToBytes v).length = 32 :=
  (BigToHash v).property

theorem leValue_bytesLE (fuel n : Nat) (hn : n ≤ fuel) : leValue (bytesLE fuel n) = n := by
  induction fuel generalizing n with
  | zero =>
    have : n = 0 := by omega
    simp [bytesLE, leValue, this]
  | succ fuel ih =>
    unfold bytesLE
    split
    · simp [leValue, *]
    · rename_i hne
      have h1 : n / 256 ≤ fuel := by
        have : n / 256 < n := Nat.div_lt_self (by omega) (by decide)
        omega
      simp only [leValue, ih _ h1]
      omega

theorem leValue_append_zeros (l : List Byte) (k : Nat) :
    leValue (l ++ List.replicate k 0) = leValue l := by
  induction l with
  | nil =>
    induction k with
    | zero => simp [leValue]
    | succ k ih => simp [List.replicate_succ, leValue, ih] at *
  | cons b l ih => simp [leValue, ih]

theorem leValue_lt (l : List Byte) : leValue l < 256 ^ l.length := by
  induction l with
  | nil => simp [leValue]
  | cons b l ih =>
    simp only [leValue, List.length_cons, pow_succ]
    have := b.isLt
    omega

theorem leValue_take (l : List Byte) (k : Nat) :
    leValue (l.take k) = leValue l % 256 ^ k := by
  induction l generalizing k with
  | nil => simp [leValue]
  | cons b l ih =>
    cases k with
    | zero => simp [leValue, Nat.mod_one]
    | succ k =>
      simp only [List.take_succ_cons, leValue, ih, pow_succ]
      rw [Nat.mul_comm (256 ^ k) 256, Nat.mod_mul]
      have := b.isLt
      have h1 : (b.val + 256 * leValue l) % 256 = b.val := by omega
      have h2 : (b.val + 256 * leValue l) / 256 = leValue l := by omega
      rw [h1, h2]

theorem leValue_injective (l₁ l₂ : List Byte) (hlen : l₁.length = l₂.length)
    (hv : leValue l₁ = leValue l₂) : l₁ = l₂ := by
  induction l₁ generalizing l₂ with
  | nil =>
    cases l₂ with
    | nil => rfl
    | cons b l => simp at hlen
  | cons a l₁ ih =>
    cases l₂ with
    | nil => simp at hlen
    | cons b l₂ =>
      simp only [leValue] at hv
      simp only [List.length_cons, Nat.add_right_cancel_iff] at hlen
      have ha := a.isLt
      have hb := b.isLt
      have h1 : a.val = b.val := by omega
      have h2 : leValue l₁ = leValue l₂ := by omega
      rw [Fin.ext h1, ih l₂ hlen h2]

theorem beValue_setBytes (b : List Byte) :
    beValue (setBytes b) = beValue b % 256 ^ HashLength := by
  unfold beValue setBytes
  by_cases h : b.length > HashLength
  · simp only [h, if_true, List.length_drop]
    have h0 : HashLength - (b.length - (b.length - HashLength)) = 0 := by omega
    rw [h0]
    simp only [List.replicate_zero, List.nil_append]
    rw [List.reverse_drop]
    have h1 : b.length - (b.length - HashLength) = HashLength := by omega
    rw [h1, leValue_take]
  · simp only [h, if_false, List.reverse_append, List.reverse_replicate]
    rw [leValue_append_zeros]
    have := leValue_lt b.reverse
    rw [List.length_reverse] at this
    have h2 : 256 ^ b.length ≤ 256 ^ HashLength :=
      Nat.pow_le_pow_right (by decide) (by omega)
    rw [Nat.mod_eq_of_lt (by omega)]

/-- The 32 bytes `bigIntToBytes` produces are the big-endian digits of the absolute value
reduced modulo `2^256`. -/
theorem beValue_bigIntToBytes (v : Int) :
    beValue (bigIntToBytes v) = v.natAbs % 2 ^ 256 := by
  have h := beValue_setBytes (bigBytes v)
  have hb : beValue (bigBytes v) = v.natAbs := by
    unfold beValue bigBytes
    rw [List.reverse_reverse]
    exact leValue_bytesLE _ _ (le_refl _)
  rw [hb] at h
  have hp : (256 : Nat) ^ HashLength = 2 ^ 256 := by
    unfold HashLength
    norm_num
  rw [hp] at h
  exact h

/-- Two big integers have the same `bigIntToBytes` exactly when their absolute values agree
modulo `2^256`. -/
theorem bigIntToBytes_eq_iff (a b : Int) :
    bigIntToBytes a = bigIntToBytes b ↔ a.natAbs % 2 ^ 256 = b.natAbs % 2 ^ 256 := by
  constructor
  · intro h
    rw [← beValue_bigIntToBytes, ← beValue_bigIntToBytes, h]
  · intro h
    rw [← beValue_bigIntToBytes, ← beValue_bigIntToBytes] at h
    unfold beValue at h
    have hlen : (bigIntToBytes a).reverse.length = (bigIntToBytes b).reverse.length := by
      simp [bigIntToBytes_length]
    have := leValue_injective _ _ hlen h
    exact List.reverse_injective this

theorem Errorf_of_ne_OK (c : Code) (m : Message) (hc : c ≠ Code.OK) :
    Errorf c m = some ⟨c, m⟩ := by
  simp [Errorf, Status.Err, hc]

theorem cmp_neg_iff (a b : Int) : Cmp a b < 0 ↔ a < b := by
  unfold Cmp
  split
  · simp [*]
  · split <;> simp [*]

theorem getSigner_log_of_ok {σ : Type} (x : Externals) (h : escrowPaymentHandler σ)
    (p : paymentData) (a : Address) (l : List LogEntry)
    (hs : getSignerAddressFromPayment x h p = (.ok a, l)) : l = [] := by
  unfold getSignerAddressFromPayment at hs
  split at hs <;> simp_all

/-- Watching the storage does not change what the call returns: the error, the store left
and the log are those of the plain call. -/
theorem observed_agrees {σ : Type} (x : Externals) (h : escrowPaymentHandler σ) (now : Time)
    (s : σ) (payment : paymentData) :
    (observed x h now s payment).err = (validatePaymentInternal x h now s payment).err ∧
    (observed x h now s payment).store.1 = (validatePaymentInternal x h now s payment).store ∧
    (observed x h now s payment).log = (validatePaymentInternal x h now s payment).log := by
  unfold observed validatePaymentInternal
  simp only [escrowPaymentHandler.recording, PaymentChannelStorage.recording]
  split
  · simp
  · split
    · simp
    · have hsig : getSignerAddressFromPayment x
          (escrowPaymentHandler.mk (PaymentChannelStorage.recording h.storage) h.processor
            h.amountValidator) payment = getSignerAddressFromPayment x h payment := rfl
      simp only [PaymentChannelStorage.recording] at hsig
      rw [hsig]
      split
      · simp
      · split
        · simp
        · split
          · simp
          · split
            · simp
            · split
              · simp
              · split
                · rename_i e s' hc
                  simp only [Prod.mk.injEq] at hc
                  obtain ⟨h1, h2⟩ := hc
                  split
                  · rename_i e2 s2 hc2
                    rw [hc2] at h1 h2
                    obtain rfl : e2 = e := by simpa using h1
                    simp [← h2]
                  · rename_i s2 hc2
                    rw [hc2] at h1
                    simp at h1
                · rename_i s' hc
                  simp only [Prod.mk.injEq] at hc
                  obtain ⟨h1, h2⟩ := hc
                  split
                  · rename_i e2 s2 hc2
                    rw [hc2] at h1
                    simp at h1
                  · rename_i s2 hc2
                    rw [hc2] at h2
                    simp [← h2]

/-- The `CompareAndSwap` invocations of one call: none, or exactly one, made on the key of
the payment with the record read as previous state and `newChannelState` as new state, and
only after the state, budget and policy checks let the payment through. -/
theorem observed_calls {σ : Type} (x : Externals) (h : escrowPaymentHandler σ) (now : Time)
    (s : σ) (payment : paymentData) :
    ((observed x h now s payment).store = (s, []) ∧
      (observed x h now s payment).err ≠ none) ∨
    ((observed x h now s payment).store = (s, []) ∧
      (observed x h now s payment).err = none ∧
      ∃ paymentChannel st, h.storage.Get s payment.channelKey = .ok paymentChannel ∧
        h.amountValidator.Validate ⟨payment.amount - paymentChannel.AuthorizedAmount⟩
          = some st ∧ st.code = Code.OK) ∨
    (∃ paymentChannel, h.storage.Get s payment.channelKey = .ok paymentChannel ∧
      paymentChannel.State = Open ∧
      (getSignerAddressFromPayment x h payment).1 = .ok paymentChannel.Sender ∧
      ¬ paymentChannel.Expiration.nanos < now.nanos ∧
      payment.amount ≤ paymentChannel.FullAmount ∧
      h.amountValidator.Validate ⟨payment.amount - paymentChannel.AuthorizedAmount⟩ = none ∧
      (observed x h now s payment).store.2 =
        [⟨payment.channelKey, paymentChannel, newChannelState paymentChannel payment⟩]) := by
  unfold observed validatePaymentInternal
  simp only [escrowPaymentHandler.recording, PaymentChannelStorage.recording]
  split
  · simp [Errorf, Status.Err]
  · rename_i rec hget
    split
    · simp [Errorf, Status.Err]
    · rename_i hopen
      have hsig : getSignerAddressFromPayment x
          (escrowPaymentHandler.mk (PaymentChannelStorage.recording h.storage) h.processor
            h.amountValidator) payment = getSignerAddressFromPayment x h payment := rfl
      simp only [PaymentChannelStorage.recording] at hsig
      rw [hsig]
      split
      · simp [Errorf, Status.Err]
      · rename_i a l hs
        split
        · simp [Errorf, Status.Err]
        · rename_i hsender
          split
          · simp [Errorf, Status.Err]
          · rename_i hexp
            split
            · simp [Errorf, Status.Err]
            · rename_i hbudget
              split
              · rename_i st hst
                by_cases hok : st.code = Code.OK
                · right; left
                  refine ⟨rfl, ?_, rec, st, hget, hst, hok⟩
                  simp [Status.Err, hok]
                · left
                  simp [Status.Err, hok]
              · rename_i hval
                right; right
                refine ⟨rec, hget, ?_, ?_, ?_, ?_, hval, ?_⟩
                · simpa using hopen
                · simp only [ne_eq, not_not] at hsender
                  rw [hs, hsender]
                · simpa [Time.Before] using hexp
                · rw [cmp_neg_iff] at hbudget
                  omega
                · split <;> rename_i hc <;> simp only [Prod.mk.injEq] at hc <;>
                    simp [newChannelState, ← hc.2]

theorem memStorage_cas_error (s : MemState) (k : PaymentChannelKey)
    (a b : PaymentChannelData) (e : GoError) (s' : MemState)
    (hc : memStorage.CompareAndSwap s k a b = (some e, s')) : s' = s := by
  unfold memStorage at hc
  simp only at hc
  split at hc
  · split at hc
    · simp at hc
    · simp only [Prod.mk.injEq] at hc
      exact hc.2.symm
  · simp only [Prod.mk.injEq] at hc
    exact hc.2.symm

theorem rejectNegative_negative (d : PaymentData) (hd : d.Income < 0) :
    rejectNegative.Validate d ≠ none := by
  simp [rejectNegative, hd]

/-! ## C1: effects on the store -/

/-- C1 (as amended). For a storage whose `CompareAndSwap` leaves the store as it was whenever
it reports an error: a call makes at most one `CompareAndSwap`; a rejected call that made
one is the commit rejection (`Internal`, logged as "Unable to store new payment channel
state"), so the lookup, state, signature, sender, expiration, budget and policy rejections
make none; every rejected call leaves the store as it was; and a successful call has made
exactly one `CompareAndSwap`, unless the amount validator answered the income with a
status of code `OK`. -/
theorem validatePaymentInternal_store_effects {σ : Type} (x : Externals)
    (h : escrowPaymentHandler σ) (now : Time) (s : σ) (payment : paymentData)
    (hcas : ∀ s k a b e s', h.storage.CompareAndSwap s k a b = (some e, s') → s' = s) :
    (observed x h now s payment).store.2.length ≤ 1 ∧
    ((observed x h now s payment).err ≠ none →
      (observed x h now s payment).store.2 ≠ [] →
      (observed x h now s payment).err = some ⟨.Internal, .unableToStore⟩ ∧
      ∃ e, ⟨.error, "Unable to store new payment channel state", some e⟩
        ∈ (observed x h now s payment).log) ∧
    ((observed x h now s payment).err ≠ none → (observed x h now s payment).store.1 = s) ∧
    ((observed x h now s payment).err = none →
      (observed x h now s payment).store.2.length = 1 ∨
      ∃ paymentChannel st, h.storage.Get s payment.channelKey = .ok paymentChannel ∧
        h.amountValidator.Validate ⟨payment.amount - paymentChannel.AuthorizedAmount⟩
          = some st ∧ st.code = Code.OK) := by
  have hfirst : (observed x h now s payment).store.2.length ≤ 1 ∧
      ((observed x h now s payment).err ≠ none →
        (observed x h now s payment).store.2 ≠ [] →
        (observed x h now s payment).err = some ⟨.Internal, .unableToStore⟩ ∧
        ∃ e, ⟨.error, "Unable to store new payment channel state", some e⟩
          ∈ (observed x h now s payment).log) ∧
      ((observed x h now s payment).err ≠ none →
        (observed x h now s payment).store.1 = s) := by
    unfold observed validatePaymentInternal
    simp only [escrowPaymentHandler.recording, PaymentChannelStorage.recording]
    split
    · simp [Errorf, Status.Err]
    · split
      · simp [Errorf, Status.Err]
      · split
        · simp [Errorf, Status.Err]
        · split
          · simp [Errorf, Status.Err]
          · split
            · simp [Errorf, Status.Err]
            · split
              · simp [Errorf, Status.Err]
              · split
                · simp
                · split
                  · rename_i e s' hc
                    simp only [Prod.mk.injEq] at hc
                    obtain ⟨h1, h2⟩ := hc
                    have := hcas _ _ _ _ e _ (Prod.ext h1 rfl)
                    simp [Errorf, Status.Err, ← h2, this]
                  · rename_i s' hc
                    simp only [Prod.mk.injEq] at hc
                    simp [← hc.2]
  refine ⟨hfirst.1, hfirst.2.1, hfirst.2.2, ?_⟩
  intro hnone
  rcases observed_calls x h now s payment with h1 | h1 | ⟨rec, _, _, _, _, _, _, hcalls⟩
  · exact absurd hnone h1.2
  · exact Or.inr h1.2.2
  · left
    rw [hcalls]
    rfl

/-- C1, concrete run: on the in-memory store with the validator that rejects negative
incomes, the payment of 60 on the test channel. -/
theorem validatePaymentInternal_store_effects_witness :
    (∀ s k a b e s', (testHandler rejectNegative).storage.CompareAndSwap s k a b = (some e, s')
      → s' = s) ∧
    ((observed testExternals (testHandler rejectNegative) ⟨0⟩ testStore
        (testPayment 60)).store.2.length ≤ 1 ∧
      ((observed testExternals (testHandler rejectNegative) ⟨0⟩ testStore
          (testPayment 60)).err ≠ none →
        (observed testExternals (testHandler rejectNegative) ⟨0⟩ testStore
          (testPayment 60)).store.2 ≠ [] →
        (observed testExternals (testHandler rejectNegative) ⟨0⟩ testStore
          (testPayment 60)).err = some ⟨.Internal, .unableToStore⟩ ∧
        ∃ e, ⟨.error, "Unable to store new payment channel state", some e⟩
          ∈ (observed testExternals (testHandler rejectNegative) ⟨0⟩ testStore
            (testPayment 60)).log) ∧
      ((observed testExternals (testHandler rejectNegative) ⟨0⟩ testStore
          (testPayment 60)).err ≠ none →
        (observed testExternals (testHandler rejectNegative) ⟨0⟩ testStore
          (testPayment 60)).store.1 = testStore) ∧
      ((observed testExternals (testHandler rejectNegative) ⟨0⟩ testStore
          (testPayment 60)).err = none →
        (observed testExternals (testHandler rejectNegative) ⟨0⟩ testStore
          (testPayment 60)).store.2.length = 1 ∨
        ∃ paymentChannel st,
          (testHandler rejectNegative).storage.Get testStore (testPayment 60).channelKey
            = .ok paymentChannel ∧
          (testHandler rejectNegative).amountValidator.Validate
            ⟨(testPayment 60).amount - paymentChannel.AuthorizedAmount⟩ = some st ∧
          st.code = Code.OK)) ∧
    (observed testExternals (testHandler rejectNegative) ⟨0⟩ testStore
      (testPayment 60)).err = none ∧
    (observed testExternals (testHandler rejectNegative) ⟨0⟩ testStore
      (testPayment 60)).store.2.length = 1 :=
  ⟨memStorage_cas_error,
    validatePaymentInternal_store_effects testExternals (testHandler rejectNegative) ⟨0⟩
      testStore (testPayment 60) memStorage_cas_error,
    by decide, by decide⟩

/-- C1, counterexample: with an amount validator that answers with a status of code `OK`,
`s.Err()` is `nil`, so the call returns success and has made no `CompareAndSwap`. -/
theorem success_without_compareAndSwap :
    (observed testExternals (testHandler answerOK) ⟨0⟩ testStore (testPayment 60)).err = none ∧
    (observed testExternals (testHandler answerOK) ⟨0⟩ testStore (testPayment 60)).store.2 = []
    := by
  decide

/-! ## C2: the budget -/

/-- C2 (as amended). For a payment whose channel record is `paymentChannel`: every record
handed to `CompareAndSwap` carries the payment amount as `AuthorizedAmount` and this is at
most its `FullAmount`; and a payment with `amount > FullAmount` is rejected with no
`CompareAndSwap` and the store untouched, with code `FailedPrecondition`, except that an open
channel whose signer is not recovered or is not the `Sender` gives `Unauthenticated`. -/
theorem overdraft_never_committed {σ : Type} (x : Externals) (h : escrowPaymentHandler σ)
    (now : Time) (s : σ) (payment : paymentData) (paymentChannel : PaymentChannelData)
    (hget : h.storage.Get s payment.channelKey = .ok paymentChannel) :
    (∀ c ∈ (observed x h now s payment).store.2,
      c.newState.AuthorizedAmount = payment.amount ∧
      c.newState.FullAmount = paymentChannel.FullAmount ∧
      c.newState.AuthorizedAmount ≤ c.newState.FullAmount) ∧
    (paymentChannel.FullAmount < payment.amount →
      (observed x h now s payment).store = (s, []) ∧
      ∃ st, (observed x h now s payment).err = some st ∧
        (st.code = .FailedPrecondition ∨ st.code = .Unauthenticated) ∧
        (st.code = .Unauthenticated ↔
          (paymentChannel.State = Open ∧
            (getSignerAddressFromPayment x h payment).1 ≠ .ok paymentChannel.Sender))) := by
  constructor
  · intro c hc
    rcases observed_calls x h now s payment with h1 | h1 | ⟨rec, hg, _, _, _, hle, _, hcalls⟩
    · rw [h1.1] at hc
      simp at hc
    · rw [h1.1] at hc
      simp at hc
    · rw [hget] at hg
      obtain rfl : paymentChannel = rec := by simpa using hg
      rw [hcalls] at hc
      simp only [List.mem_singleton] at hc
      subst hc
      simp [newChannelState, hle]
  · intro hover
    have hsig : getSignerAddressFromPayment x
        (escrowPaymentHandler.mk (PaymentChannelStorage.recording h.storage) h.processor
          h.amountValidator) payment = getSignerAddressFromPayment x h payment := rfl
    simp only [PaymentChannelStorage.recording] at hsig
    unfold observed validatePaymentInternal
    simp only [escrowPaymentHandler.recording, PaymentChannelStorage.recording, hget, hsig]
    split
    · rename_i hopen
      simp [Errorf, Status.Err, hopen]
    · rename_i hopen
      simp only [ne_eq, not_not] at hopen
      split
      · rename_i e l hs
        simp [Errorf, Status.Err, hopen, hs]
      · rename_i a l hs
        split
        · rename_i hsender
          simp [Errorf, Status.Err, hopen, hs, hsender]
        · rename_i hsender
          simp only [ne_eq, not_not] at hsender
          split
          · simp [Errorf, Status.Err, hopen, hs, hsender]
          · split
            · simp [Errorf, Status.Err, hopen, hs, hsender]
            · rename_i hb
              rw [cmp_neg_iff] at hb
              exact absurd hover hb

/-- C2, concrete run: the payment of 150 on the test channel, whose `FullAmount` is 100. -/
theorem overdraft_never_committed_witness :
    (testHandler acceptAll).storage.Get testStore (testPayment 150).channelKey
      = .ok testChannel ∧
    ((∀ c ∈ (observed testExternals (testHandler acceptAll) ⟨0⟩ testStore
        (testPayment 150)).store.2,
      c.newState.AuthorizedAmount = (testPayment 150).amount ∧
      c.newState.FullAmount = testChannel.FullAmount ∧
      c.newState.AuthorizedAmount ≤ c.newState.FullAmount) ∧
    (testChannel.FullAmount < (testPayment 150).amount →
      (observed testExternals (testHandler acceptAll) ⟨0⟩ testStore (testPayment 150)).store
        = (testStore, []) ∧
      ∃ st, (observed testExternals (testHandler acceptAll) ⟨0⟩ testStore
          (testPayment 150)).err = some st ∧
        (st.code = .FailedPrecondition ∨ st.code = .Unauthenticated) ∧
        (st.code = .Unauthenticated ↔
          (testChannel.State = Open ∧
            (getSignerAddressFromPayment testExternals (testHandler acceptAll)
              (testPayment 150)).1 ≠ .ok testChannel.Sender)))) :=
  ⟨rfl, overdraft_never_committed testExternals (testHandler acceptAll) ⟨0⟩ testStore
    (testPayment 150) testChannel rfl⟩

/-- C2, counterexample: a payment of 150 on the test channel (`FullAmount` 100) signed by
an account other than the sender is rejected with code `Unauthenticated`, not
`FailedPrecondition`: the sender check comes before the budget check. -/
theorem overdraft_rejected_unauthenticated :
    memStorage.Get testStore testKey = .ok testChannel ∧
    testChannel.FullAmount < 150 ∧
    (validatePaymentInternal testExternals (testHandler acceptAll) ⟨0⟩ testStore
      ⟨testKey, 150, [0xBB]⟩).err = some ⟨.Unauthenticated, .notSignedBySender⟩ :=
  ⟨rfl, by decide, by decide⟩

/-! ## C3: the authorized amount over time -/

/-- One call on the in-memory store, under a validator that lets no negative income through:
a record present under `key` before the call is present after it, with an `AuthorizedAmount`
at least as large. -/
theorem memStorage_step_monotone (x : Externals) (proc : Processor) (v : AmountValidator)
    (hpol : ∀ d, d.Income < 0 → v.Validate d ≠ none) (now : Time) (s : MemState)
    (payment : paymentData) (key : PaymentChannelKey) (r : PaymentChannelData)
    (hr : s.records key = some r) :
    ∃ r', (validatePaymentInternal x ⟨memStorage, proc, v⟩ now s payment).store.records key
        = some r' ∧ r.AuthorizedAmount ≤ r'.AuthorizedAmount := by
  unfold validatePaymentInternal
  dsimp only
  split
  · exact ⟨r, hr, le_refl _⟩
  · split
    · exact ⟨r, hr, le_refl _⟩
    · split
      · exact ⟨r, hr, le_refl _⟩
      · split
        · exact ⟨r, hr, le_refl _⟩
        · split
          · exact ⟨r, hr, le_refl _⟩
          · split
            · exact ⟨r, hr, le_refl _⟩
            · split
              · exact ⟨r, hr, le_refl _⟩
              · rename_i rec _ _ _ _ _ _ _ _ _ _ hval
                have hinc : ¬ (payment.amount - rec.AuthorizedAmount < 0) := by
                  intro hneg
                  exact hpol ⟨payment.amount - rec.AuthorizedAmount⟩ hneg hval
                split
                · rename_i e s' hc
                  have := memStorage_cas_error _ _ _ _ _ _ hc
                  subst this
                  exact ⟨r, hr, le_refl _⟩
                · rename_i s' hc
                  simp only [memStorage] at hc
                  split at hc
                  · split at hc
                    · rename_i hstored
                      simp only [Prod.mk.injEq, true_and] at hc
                      subst hc
                      by_cases hk : key = payment.channelKey
                      · subst hk
                        rw [hstored] at hr
                        simp only [Option.some.injEq] at hr
                        subst hr
                        refine ⟨newChannelState rec payment, by simp [newChannelState], ?_⟩
                        simp only [newChannelState]
                        omega
                      · exact ⟨r, by simp [hk, hr], le_refl _⟩
                    · simp at hc
                  · simp at hc

/-- C3 (as amended). For an amount validator that lets no negative income through (it
never returns `nil` for one): every `CompareAndSwap` a call makes has the record read as
previous state and a new state whose `AuthorizedAmount` is at least that of the record
read; and over any run of calls on the in-memory store, a record stored under a key stays
stored and its `AuthorizedAmount` never decreases. -/
theorem authorizedAmount_monotone {σ : Type} (x : Externals) (st : PaymentChannelStorage σ)
    (proc : Processor) (v : AmountValidator)
    (hpol : ∀ d, d.Income < 0 → v.Validate d ≠ none) :
    (∀ now s payment, ∀ c ∈ (observed x ⟨st, proc, v⟩ now s payment).store.2,
      st.Get s payment.channelKey = .ok c.prevState ∧
      c.newState.AuthorizedAmount = payment.amount ∧
      c.prevState.AuthorizedAmount ≤ c.newState.AuthorizedAmount) ∧
    (∀ calls s key r, s.records key = some r →
      ∃ r', (validateAll x ⟨memStorage, proc, v⟩ calls s).records key = some r' ∧
        r.AuthorizedAmount ≤ r'.AuthorizedAmount) := by
  constructor
  · intro now s payment c hc
    rcases observed_calls x ⟨st, proc, v⟩ now s payment with
      h1 | h1 | ⟨rec, hg, _, _, _, _, hval, hcalls⟩
    · rw [h1.1] at hc
      simp at hc
    · rw [h1.1] at hc
      simp at hc
    · rw [hcalls] at hc
      simp only [List.mem_singleton] at hc
      subst hc
      refine ⟨hg, rfl, ?_⟩
      have hinc : ¬ (payment.amount - rec.AuthorizedAmount < 0) := by
        intro hneg
        exact hpol ⟨payment.amount - rec.AuthorizedAmount⟩ hneg hval
      simp only [newChannelState]
      omega
  · intro calls
    induction calls with
    | nil =>
      intro s key r hr
      exact ⟨r, hr, le_refl _⟩
    | cons c rest ih =>
      intro s key r hr
      obtain ⟨now, payment⟩ := c
      obtain ⟨r1, hr1, hle1⟩ := memStorage_step_monotone x proc v hpol now s payment key r hr
      obtain ⟨r2, hr2, hle2⟩ := ih _ key r1 hr1
      exact ⟨r2, hr2, le_trans hle1 hle2⟩

/-- C3, concrete run: the validator that rejects negative incomes; the payments 60 and then
30 on the test channel, the second being rejected. -/
theorem authorizedAmount_monotone_witness :
    (∀ d, d.Income < 0 → rejectNegative.Validate d ≠ none) ∧
    ((∀ now s payment,
      ∀ c ∈ (observed testExternals ⟨memStorage, ⟨zeroAddress⟩, rejectNegative⟩ now s
          payment).store.2,
      memStorage.Get s payment.channelKey = .ok c.prevState ∧
      c.newState.AuthorizedAmount = payment.amount ∧
      c.prevState.AuthorizedAmount ≤ c.newState.AuthorizedAmount) ∧
    (∀ calls s key r, s.records key = some r →
      ∃ r', (validateAll testExternals ⟨memStorage, ⟨zeroAddress⟩, rejectNegative⟩ calls
          s).records key = some r' ∧
        r.AuthorizedAmount ≤ r'.AuthorizedAmount)) ∧
    ((validateAll testExternals ⟨memStorage, ⟨zeroAddress⟩, rejectNegative⟩
        [(⟨0⟩, testPayment 60), (⟨1⟩, testPayment 30)] testStore).records testKey).map
      (fun r => r.AuthorizedAmount) = some 60 :=
  ⟨rejectNegative_negative,
    authorizedAmount_monotone testExternals memStorage ⟨zeroAddress⟩ rejectNegative
      rejectNegative_negative,
    by decide⟩

/-- C3, counterexample: with a validator that accepts every income, the payment of 30 on
the test channel, whose stored `AuthorizedAmount` is 40, is accepted and the record written
has `AuthorizedAmount` 30. -/
theorem authorizedAmount_decreases :
    memStorage.Get testStore testKey = .ok testChannel ∧
    testChannel.AuthorizedAmount = 40 ∧
    (observed testExternals (testHandler acceptAll) ⟨0⟩ testStore (testPayment 30)).err
      = none ∧
    (observed testExternals (testHandler acceptAll) ⟨0⟩ testStore (testPayment 30)).store.2
      = [⟨testKey, testChannel, newChannelState testChannel (testPayment 30)⟩] ∧
    (newChannelState testChannel (testPayment 30)).AuthorizedAmount = 30 ∧
    ((observed testExternals (testHandler acceptAll) ⟨0⟩ testStore
        (testPayment 30)).store.1.records testKey).map (fun r => r.AuthorizedAmount)
      = some 30 :=
  ⟨rfl, rfl, by decide, by decide, rfl, by decide⟩

/-! ## C4: what the commit writes -/

/-- C4, the code at the failing input: the accepted payment of 60 on the test channel makes
one `CompareAndSwap` whose new state keeps `State`, `FullAmount` and `Expiration` of the
record read, takes `AuthorizedAmount` and `Signature` from the payment, and has the zero
address as `Sender` instead of the sender `0xAAA…` of the record read; the next payment
signed by that sender is then rejected as not signed by the channel sender. -/
theorem commit_resets_sender :
    memStorage.Get testStore testKey = .ok testChannel ∧
    (observed testExternals (testHandler acceptAll) ⟨0⟩ testStore (testPayment 60)).err
      = none ∧
    (observed testExternals (testHandler acceptAll) ⟨0⟩ testStore (testPayment 60)).store.2
      = [⟨testKey, testChannel,
          { State := testChannel.State
            Sender := zeroAddress
            FullAmount := testChannel.FullAmount
            Expiration := testChannel.Expiration
            AuthorizedAmount := 60
            Signature := (testPayment 60).signature }⟩] ∧
    testChannel.Sender = alice ∧ alice ≠ zeroAddress ∧
    (validatePaymentInternal testExternals (testHandler acceptAll) ⟨1⟩
      (validatePaymentInternal testExternals (testHandler acceptAll) ⟨0⟩ testStore
        (testPayment 60)).store (testPayment 70)).err
      = some ⟨.Unauthenticated, .notSignedBySender⟩ :=
  ⟨rfl, by decide, by decide, rfl, by decide, by decide⟩

/-! ## C5: expiration -/

/-- C5 (as amended). For an open channel record whose signature and sender checks pass, the
call rejects the payment as expired (code `FailedPrecondition`, logged as "Channel is
expired") if and only if the record's `Expiration` is strictly before the current time. -/
theorem expired_iff_before_now {σ : Type} (x : Externals) (h : escrowPaymentHandler σ)
    (now : Time) (s : σ) (payment : paymentData) (paymentChannel : PaymentChannelData)
    (hget : h.storage.Get s payment.channelKey = .ok paymentChannel)
    (hopen : paymentChannel.State = Open)
    (hsigner : (getSignerAddressFromPayment x h payment).1 = .ok paymentChannel.Sender) :
    ((validatePaymentInternal x h now s payment).err
        = some ⟨.FailedPrecondition, .channelExpired paymentChannel.Expiration⟩ ∧
      (validatePaymentInternal x h now s payment).log = [⟨.warn, "Channel is expired", none⟩])
    ↔ paymentChannel.Expiration.nanos < now.nanos := by
  unfold validatePaymentInternal
  simp only [hget, hopen]
  split
  · rename_i hc
    exact absurd rfl hc
  · split
    · rename_i e l hs
      rw [hs] at hsigner
      simp at hsigner
    · rename_i a l hs
      have hl := getSigner_log_of_ok x h payment a l hs
      subst hl
      rw [hs] at hsigner
      simp only [Except.ok.injEq] at hsigner
      subst hsigner
      simp only [ne_eq, not_true_eq_false, if_false, Time.Before, decide_eq_true_eq]
      split
      · rename_i hlt
        simp [Errorf, Status.Err, hlt]
      · rename_i hlt
        simp only [hlt, iff_false, not_and]
        split
        · simp
        · split
          · simp
          · split <;> simp

/-- C5, concrete run: the test channel expires at instant 3600; at instant 3601 the payment
of 60 is rejected as expired. -/
theorem expired_iff_before_now_witness :
    (testHandler acceptAll).storage.Get testStore (testPayment 60).channelKey
      = .ok testChannel ∧
    testChannel.State = Open ∧
    (getSignerAddressFromPayment testExternals (testHandler acceptAll) (testPayment 60)).1
      = .ok testChannel.Sender ∧
    (((validatePaymentInternal testExternals (testHandler acceptAll) ⟨3601⟩ testStore
          (testPayment 60)).err
        = some ⟨.FailedPrecondition, .channelExpired testChannel.Expiration⟩ ∧
      (validatePaymentInternal testExternals (testHandler acceptAll) ⟨3601⟩ testStore
          (testPayment 60)).log = [⟨.warn, "Channel is expired", none⟩])
    ↔ testChannel.Expiration.nanos < (3601 : Int)) :=
  ⟨rfl, rfl, rfl,
    expired_iff_before_now testExternals (testHandler acceptAll) ⟨3601⟩ testStore
      (testPayment 60) testChannel rfl rfl rfl⟩

/-- C5, counterexample: at the very instant the test channel expires (3600) the payment of
60 is not rejected as expired: it is accepted and committed. -/
theorem not_expired_at_expiration :
    memStorage.Get testStore testKey = .ok testChannel ∧
    testChannel.Expiration = ⟨3600⟩ ∧
    (observed testExternals (testHandler acceptAll) ⟨3600⟩ testStore (testPayment 60)).err
      = none ∧
    (observed testExternals (testHandler acceptAll) ⟨3600⟩ testStore
      (testPayment 60)).store.2.length = 1 ∧
    (observed testExternals (testHandler acceptAll) ⟨3600⟩ testStore (testPayment 60)).log
      = [] :=
  ⟨rfl, rfl, by decide, by decide, by decide⟩

/-! ## C6: the amount in the signed message -/

theorem paymentMessage_eq_iff (contract : Address) (key : PaymentChannelKey) (a b : Int) :
    paymentMessage contract key a = paymentMessage contract key b ↔
      bigIntToBytes a = bigIntToBytes b := by
  simp [paymentMessage]

/-- C6 (as amended). For every contract address, every channel key and every two amounts
`A ≠ B` with `0 ≤ A, B < 2^256`: `bigIntToBytes` gives them different encodings, the byte
string `getSignerAddressFromPayment` hashes for `A` differs from the one for `B`, and under
an injective `Keccak256` so do the two digests, whatever the signatures. -/
theorem amount_binding_below_2_pow_256 {σ : Type} (x : Externals)
    (h : escrowPaymentHandler σ) (key : PaymentChannelKey) (sigA sigB : List Byte)
    (A B : Int) (hA0 : 0 ≤ A) (hA : A < 2 ^ 256) (hB0 : 0 ≤ B) (hB : B < 2 ^ 256)
    (hne : A ≠ B) :
    bigIntToBytes A ≠ bigIntToBytes B ∧
    paymentMessage h.processor.escrowContractAddress key A
      ≠ paymentMessage h.processor.escrowContractAddress key B ∧
    (Function.Injective x.Keccak256 →
      paymentHash x h ⟨key, A, sigA⟩ ≠ paymentHash x h ⟨key, B, sigB⟩) := by
  have henc : bigIntToBytes A ≠ bigIntToBytes B := by
    intro heq
    rw [bigIntToBytes_eq_iff] at heq
    obtain ⟨a, rfl⟩ := Int.eq_ofNat_of_zero_le hA0
    obtain ⟨b, rfl⟩ := Int.eq_ofNat_of_zero_le hB0
    have ha : a < 2 ^ 256 := by exact_mod_cast hA
    have hb : b < 2 ^ 256 := by exact_mod_cast hB
    simp only [Int.natAbs_ofNat] at heq
    rw [Nat.mod_eq_of_lt ha, Nat.mod_eq_of_lt hb] at heq
    exact hne (by rw [heq])
  have hmsg : paymentMessage h.processor.escrowContractAddress key A
      ≠ paymentMessage h.processor.escrowContractAddress key B := by
    rw [ne_eq, paymentMessage_eq_iff]
    exact henc
  refine ⟨henc, hmsg, ?_⟩
  intro hinj heq
  unfold paymentHash at heq
  have h1 := hinj heq
  have h2 := hinj (List.append_cancel_left h1)
  exact hmsg h2

/-- C6, concrete run: the amounts 40 and 60 on the test key, with the identity as hash. -/
theorem amount_binding_below_2_pow_256_witness :
    (0 : Int) ≤ 40 ∧ (40 : Int) < 2 ^ 256 ∧ (0 : Int) ≤ 60 ∧ (60 : Int) < 2 ^ 256 ∧
    (40 : Int) ≠ 60 ∧
    (bigIntToBytes 40 ≠ bigIntToBytes 60 ∧
      paymentMessage (testHandler acceptAll).processor.escrowContractAddress testKey 40
        ≠ paymentMessage (testHandler acceptAll).processor.escrowContractAddress testKey 60 ∧
      (Function.Injective testExternals.Keccak256 →
        paymentHash testExternals (testHandler acceptAll) ⟨testKey, 40, [0xAA]⟩
          ≠ paymentHash testExternals (testHandler acceptAll) ⟨testKey, 60, [0xAA]⟩)) :=
  ⟨by decide, by norm_num, by decide, by norm_num, by decide,
    amount_binding_below_2_pow_256 testExternals (testHandler acceptAll) testKey [0xAA] [0xAA]
      40 60 (by decide) (by norm_num) (by decide) (by norm_num) (by decide)⟩

/-- C6, counterexample: the unsigned amounts 0 and `2^256` differ and have the same
`bigIntToBytes` (`BigToHash` keeps the low 32 bytes), hence the same hashed byte string and,
even with the identity as hash, the same digest. -/
theorem amount_encoding_collision :
    (0 : Int) ≠ 2 ^ 256 ∧
    bigIntToBytes 0 = bigIntToBytes (2 ^ 256) ∧
    paymentMessage zeroAddress testKey 0 = paymentMessage zeroAddress testKey (2 ^ 256) ∧
    paymentHash testExternals (testHandler acceptAll) ⟨testKey, 0, [0xAA]⟩
      = paymentHash testExternals (testHandler acceptAll) ⟨testKey, 2 ^ 256, [0xAA]⟩ := by
  have henc : bigIntToBytes 0 = bigIntToBytes (2 ^ 256) := by
    rw [bigIntToBytes_eq_iff]
    norm_num [Int.natAbs_pow]
  refine ⟨by norm_num, henc, ?_, ?_⟩
  · rw [paymentMessage_eq_iff]
    exact henc
  · unfold paymentHash
    rw [(paymentMessage_eq_iff _ _ _ _).mpr henc]

/-! ## C7: the layout of the digest -/

/-- C7 (as amended). The digest `getSignerAddressFromPayment` recovers the signer from is
`Keccak256(hashPrefix32Bytes ++ Keccak256(contractAddress ++ e(id) ++ e(nonce) ++ e(amount)))`
where the contract address enters as its 20 bytes and each `e(.)` is the 32-byte big-endian
encoding of the absolute value modulo `2^256`; the inner hashed byte string is exactly 116
bytes long. -/
theorem paymentHash_layout {σ : Type} (x : Externals) (h : escrowPaymentHandler σ)
    (payment : paymentData) :
    paymentHash x h payment
      = x.Keccak256 (x.hashPrefix32Bytes ++
          x.Keccak256 (h.processor.escrowContractAddress.Bytes ++
            bigIntToBytes payment.channelKey.Id ++ bigIntToBytes payment.channelKey.Nonce ++
            bigIntToBytes payment.amount)) ∧
    (getSignerAddressFromPayment x h payment).1
      = (x.SigToPub (paymentHash x h payment) payment.signature).map x.PubkeyToAddress ∧
    h.processor.escrowContractAddress.Bytes.length = 20 ∧
    ((bigIntToBytes payment.channelKey.Id).length = 32 ∧
      beValue (bigIntToBytes payment.channelKey.Id) = payment.channelKey.Id.natAbs % 2 ^ 256) ∧
    ((bigIntToBytes payment.channelKey.Nonce).length = 32 ∧
      beValue (bigIntToBytes payment.channelKey.Nonce)
        = payment.channelKey.Nonce.natAbs % 2 ^ 256) ∧
    ((bigIntToBytes payment.amount).length = 32 ∧
      beValue (bigIntToBytes payment.amount) = payment.amount.natAbs % 2 ^ 256) ∧
    (paymentMessage h.processor.escrowContractAddress payment.channelKey
      payment.amount).length = 116 := by
  refine ⟨rfl, ?_, h.processor.escrowContractAddress.property,
    ⟨bigIntToBytes_length _, beValue_bigIntToBytes _⟩,
    ⟨bigIntToBytes_length _, beValue_bigIntToBytes _⟩,
    ⟨bigIntToBytes_length _, beValue_bigIntToBytes _⟩, ?_⟩
  · unfold getSignerAddressFromPayment
    split <;> rename_i hs <;> simp [hs, Except.map]
  · have := h.processor.escrowContractAddress.property
    simp only [paymentMessage, Address.Bytes, List.length_append, bigIntToBytes_length, this,
      AddressLength]

/-- C7, counterexample: for the payment of 60 on the test key the inner hashed byte string
is 116 bytes long, not 128: its first field, the contract address, is 20 bytes long. -/
theorem paymentMessage_length_not_128 :
    (paymentMessage (testHandler acceptAll).processor.escrowContractAddress
      (testPayment 60).channelKey (testPayment 60).amount).length = 116 ∧
    (testHandler acceptAll).processor.escrowContractAddress.Bytes.length = 20 ∧
    (paymentMessage (testHandler acceptAll).processor.escrowContractAddress
      (testPayment 60).channelKey (testPayment 60).amount).length ≠ 128 := by
  decide

/-! ## C8: a failing lookup -/

/-- C8 (as amended). Whatever error `storage.Get` returns, absent key and infrastructure
failure alike, `validatePaymentInternal` returns the `FailedPrecondition` rejection
"payment channel not found", leaves the store as it was and logs the error under "Payment
channel not found"; and it logs and returns that lookup rejection only when `Get` returned
an error. -/
theorem lookup_error_reported_not_found {σ : Type} (x : Externals)
    (h : escrowPaymentHandler σ) (now : Time) (s : σ) (payment : paymentData) :
    (∀ e, h.storage.Get s payment.channelKey = .error e →
      (validatePaymentInternal x h now s payment).err
        = some ⟨.FailedPrecondition, .channelNotFound payment.channelKey⟩ ∧
      (validatePaymentInternal x h now s payment).store = s ∧
      (validatePaymentInternal x h now s payment).log
        = [⟨.warn, "Payment channel not found", some e⟩]) ∧
    ((∃ e, ⟨.warn, "Payment channel not found", some e⟩
        ∈ (validatePaymentInternal x h now s payment).log) →
      ∃ e, h.storage.Get s payment.channelKey = .error e) := by
  constructor
  · intro e hget
    unfold validatePaymentInternal
    simp [hget, Errorf, Status.Err]
  · unfold validatePaymentInternal
    split
    · rename_i e hget
      intro _
      exact ⟨e, hget⟩
    · split
      · simp
      · split
        · rename_i e l hs
          unfold getSignerAddressFromPayment at hs
          split at hs
          · simp only [Prod.mk.injEq] at hs
            simp [← hs.2]
          · simp at hs
        · rename_i a l hs
          have hl := getSigner_log_of_ok x h payment a l hs
          subst hl
          split
          · simp
          · split
            · simp
            · split
              · simp
              · dsimp only
                split
                · simp
                · split <;> simp

/-- C8, concrete run: the unreachable store. -/
theorem lookup_error_reported_not_found_witness :
    memStorage.Get downStore (testPayment 60).channelKey = .error .unavailable ∧
    (validatePaymentInternal testExternals (testHandler acceptAll) ⟨0⟩ downStore
      (testPayment 60)).log = [⟨.warn, "Payment channel not found", some .unavailable⟩] :=
  ⟨rfl,
    ((lookup_error_reported_not_found testExternals (testHandler acceptAll) ⟨0⟩ downStore
      (testPayment 60)).1 .unavailable rfl).2.2⟩

/-- C8, counterexample: on a store that cannot be reached `Get` fails with the
infrastructure error `unavailable`, although the record exists, and the call returns the
`FailedPrecondition` rejection "payment channel not found", not an internal error. -/
theorem unreachable_store_reported_not_found :
    memStorage.Get downStore testKey = .error .unavailable ∧
    downStore.records testKey = some testChannel ∧
    (validatePaymentInternal testExternals (testHandler acceptAll) ⟨0⟩ downStore
      (testPayment 60)).err = some ⟨.FailedPrecondition, .channelNotFound testKey⟩ :=
  ⟨rfl, rfl, by decide⟩

/-! ## C9: a failing commit -/

/-- C9 (as amended). For every payment that passes all checks up to the commit, whatever
error `CompareAndSwap` returns, a mismatch and an unavailable store alike, the call returns
the same rejection, `Internal` "unable to store new payment channel state"; the storage
error appears only in the log entry. -/
theorem commit_error_reported_internal {σ : Type} (x : Externals)
    (h : escrowPaymentHandler σ) (now : Time) (s : σ) (payment : paymentData)
    (paymentChannel : PaymentChannelData) (e : GoError) (s' : σ)
    (hget : h.storage.Get s payment.channelKey = .ok paymentChannel)
    (hopen : paymentChannel.State = Open)
    (hsigner : (getSignerAddressFromPayment x h payment).1 = .ok paymentChannel.Sender)
    (hexp : ¬ paymentChannel.Expiration.nanos < now.nanos)
    (hbudget : payment.amount ≤ paymentChannel.FullAmount)
    (hval : h.amountValidator.Validate ⟨payment.amount - paymentChannel.AuthorizedAmount⟩
      = none)
    (hcas : h.storage.CompareAndSwap s payment.channelKey paymentChannel
      (newChannelState paymentChannel payment) = (some e, s')) :
    (validatePaymentInternal x h now s payment).err = some ⟨.Internal, .unableToStore⟩ ∧
    (validatePaymentInternal x h now s payment).store = s' ∧
    (validatePaymentInternal x h now s payment).log
      = [⟨.error, "Unable to store new payment channel state", some e⟩] := by
  unfold validatePaymentInternal
  simp only [hget, hopen]
  split
  · rename_i hc
    exact absurd rfl hc
  · split
    · rename_i e2 l hs
      rw [hs] at hsigner
      simp at hsigner
    · rename_i a l hs
      have hl := getSigner_log_of_ok x h payment a l hs
      subst hl
      rw [hs] at hsigner
      simp only [Except.ok.injEq] at hsigner
      subst hsigner
      have hb : ¬ Cmp paymentChannel.FullAmount payment.amount < 0 := by
        rw [cmp_neg_iff]
        omega
      unfold newChannelState at hcas
      simp only [hopen] at hcas
      simp [Time.Before, hexp, hb, hval, hcas, Errorf, Status.Err]

/-- C9, concrete run: another request commits on the test channel between the `Get` and the
`CompareAndSwap` of the payment of 60, whose `CompareAndSwap` then reports a mismatch. -/
theorem commit_error_reported_internal_witness :
    (racingHandler concurrentUpdate).storage.Get testStore (testPayment 60).channelKey
      = .ok testChannel ∧
    (racingHandler concurrentUpdate).storage.CompareAndSwap testStore
      (testPayment 60).channelKey testChannel (newChannelState testChannel (testPayment 60))
      = (some .conflict, concurrentUpdate testStore) ∧
    ((validatePaymentInternal testExternals (racingHandler concurrentUpdate) ⟨0⟩ testStore
        (testPayment 60)).err = some ⟨.Internal, .unableToStore⟩ ∧
      (validatePaymentInternal testExternals (racingHandler concurrentUpdate) ⟨0⟩ testStore
        (testPayment 60)).store = concurrentUpdate testStore ∧
      (validatePaymentInternal testExternals (racingHandler concurrentUpdate) ⟨0⟩ testStore
        (testPayment 60)).log
        = [⟨.error, "Unable to store new payment channel state", some .conflict⟩]) :=
  ⟨rfl, rfl,
    commit_error_reported_internal testExternals (racingHandler concurrentUpdate) ⟨0⟩
      testStore (testPayment 60) testChannel .conflict (concurrentUpdate testStore)
      rfl rfl rfl (by decide) (by decide) rfl rfl⟩

/-- C9, counterexample: the payment of 60 on the test channel passes all checks up to the
commit; when the `CompareAndSwap` reports a mismatch (another request committed in between)
and when it fails because the store has become unreachable, the call returns one and the
same rejection. -/
theorem mismatch_and_outage_same_rejection :
    (validatePaymentInternal testExternals (racingHandler concurrentUpdate) ⟨0⟩ testStore
      (testPayment 60)).log
      = [⟨.error, "Unable to store new payment channel state", some .conflict⟩] ∧
    (validatePaymentInternal testExternals (racingHandler outage) ⟨0⟩ testStore
      (testPayment 60)).log
      = [⟨.error, "Unable to store new payment channel state", some .unavailable⟩] ∧
    (validatePaymentInternal testExternals (racingHandler concurrentUpdate) ⟨0⟩ testStore
      (testPayment 60)).err
      = (validatePaymentInternal testExternals (racingHandler outage) ⟨0⟩ testStore
        (testPayment 60)).err ∧
    (validatePaymentInternal testExternals (racingHandler outage) ⟨0⟩ testStore
      (testPayment 60)).err = some ⟨.Internal, .unableToStore⟩ := by
  decide

end Blockchain

namespace Etcddb

open Blockchain

/-! ## C10: compare-and-set on the byte store -/

/-- C10. `CompareAndSet(key, expect, update)` returns `ok = true` without error exactly when
the value stored under `key` equals `expect`, and then a following `Get(key)` returns
`update`; otherwise it returns `ok = false` without error and leaves the store unchanged.
Consequently, after `Put(key, expect)` with `expect ≠ update`, a first
`CompareAndSet(key, expect, update)` succeeds, and an identical second one returns
`ok = false` and leaves `update` stored. -/
theorem compareAndSet_replaces_iff_expected (c : EtcdClient) (key expect update : List Byte) :
    ((c.CompareAndSet key expect update).1 = (true, none) ↔ c.kv key = some expect) ∧
    (c.kv key = some expect →
      (c.CompareAndSet key expect update).1 = (true, none) ∧
      (c.CompareAndSet key expect update).2.Get key = (update, none)) ∧
    (c.kv key ≠ some expect →
      (c.CompareAndSet key expect update).1 = (false, none) ∧
      (c.CompareAndSet key expect update).2 = c) ∧
    (expect ≠ update →
      (c.Put key expect).1 = none ∧
      ((c.Put key expect).2.CompareAndSet key expect update).1 = (true, none) ∧
      ((c.Put key expect).2.CompareAndSet key expect update).2.Get key = (update, none) ∧
      (((c.Put key expect).2.CompareAndSet key expect update).2.CompareAndSet key expect
        update).1 = (false, none) ∧
      (((c.Put key expect).2.CompareAndSet key expect update).2.CompareAndSet key expect
        update).2.Get key = (update, none)) := by
  refine ⟨?_, ?_, ?_, ?_⟩
  · unfold EtcdClient.CompareAndSet
    split <;> simp [*]
  · intro hk
    simp [EtcdClient.CompareAndSet, EtcdClient.Get, hk]
  · intro hk
    simp [EtcdClient.CompareAndSet, hk]
  · intro hne
    have hne2 : ¬ update = expect := fun hh => hne hh.symm
    simp [EtcdClient.CompareAndSet, EtcdClient.Get, EtcdClient.Put, hne2]

/-- C10, concrete run: the steps of `TestPaymentChannelStorageCAS` on an empty store, with
the bytes of the strings `key`, `expect` and `update`. -/
theorem compareAndSet_replaces_iff_expected_witness :
    expectBytes ≠ updateBytes ∧
    (emptyClient.Put keyBytes expectBytes).1 = none ∧
    ((emptyClient.Put keyBytes expectBytes).2.CompareAndSet keyBytes expectBytes
      updateBytes).1 = (true, none) ∧
    ((emptyClient.Put keyBytes expectBytes).2.CompareAndSet keyBytes expectBytes
      updateBytes).2.Get keyBytes = (updateBytes, none) ∧
    (((emptyClient.Put keyBytes expectBytes).2.CompareAndSet keyBytes expectBytes
      updateBytes).2.CompareAndSet keyBytes expectBytes updateBytes).1 = (false, none) ∧
    (((emptyClient.Put keyBytes expectBytes).2.CompareAndSet keyBytes expectBytes
      updateBytes).2.CompareAndSet keyBytes expectBytes updateBytes).2.Get keyBytes
      = (updateBytes, none) :=
  ⟨by decide,
    (compareAndSet_replaces_iff_expected emptyClient keyBytes expectBytes updateBytes).2.2.2
      (by decide)⟩

end Etcddb

namespace Blockchain

/-! ## C11: the first failing stage decides -/

/-- C11 (as amended). The result of `validatePaymentInternal` is decided by the first
failing stage in the order lookup, state, signature recovery, sender match, expiration,
budget, amount policy, commit: a failing lookup gives `FailedPrecondition`; a record that
is not `Open` gives `FailedPrecondition`; an unrecoverable signature or a signer different
from `Sender` gives `Unauthenticated`; an `Expiration` before now or `amount > FullAmount`
gives `FailedPrecondition`; a status of the amount policy, called with the income
`amount - AuthorizedAmount`, is returned as the policy's own status when its code is not
`OK`; a `CompareAndSwap` error gives `Internal`; when no stage fails the result is success,
and a success comes from no stage failing, unless the policy answered with a status of code
`OK`. -/
theorem first_failing_stage_decides {σ : Type} (x : Externals)
    (h : escrowPaymentHandler σ) (now : Time) (s : σ) (payment : paymentData) :
    (firstFailing x h now s payment = some .lookup →
      (validatePaymentInternal x h now s payment).err
        = some ⟨.FailedPrecondition, .channelNotFound payment.channelKey⟩) ∧
    (firstFailing x h now s payment = some .state →
      (validatePaymentInternal x h now s payment).err
        = some ⟨.FailedPrecondition, .channelNotOpened payment.channelKey⟩) ∧
    (firstFailing x h now s payment = some .signatureRecovery →
      (validatePaymentInternal x h now s payment).err
        = some ⟨.Unauthenticated, .signatureNotValid⟩) ∧
    (firstFailing x h now s payment = some .senderMatch →
      (validatePaymentInternal x h now s payment).err
        = some ⟨.Unauthenticated, .notSignedBySender⟩) ∧
    (firstFailing x h now s payment = some .expiration →
      ∃ r, h.storage.Get s payment.channelKey = .ok r ∧
        (validatePaymentInternal x h now s payment).err
          = some ⟨.FailedPrecondition, .channelExpired r.Expiration⟩) ∧
    (firstFailing x h now s payment = some .budget →
      ∃ r, h.storage.Get s payment.channelKey = .ok r ∧
        (validatePaymentInternal x h now s payment).err
          = some ⟨.FailedPrecondition, .notEnoughTokens r.FullAmount payment.amount⟩) ∧
    (firstFailing x h now s payment = some .amountPolicy →
      ∃ r st, h.storage.Get s payment.channelKey = .ok r ∧
        h.amountValidator.Validate ⟨payment.amount - r.AuthorizedAmount⟩ = some st ∧
        (st.code ≠ Code.OK → (validatePaymentInternal x h now s payment).err = some st)) ∧
    (firstFailing x h now s payment = some .commit →
      (validatePaymentInternal x h now s payment).err = some ⟨.Internal, .unableToStore⟩) ∧
    (firstFailing x h now s payment = none →
      (validatePaymentInternal x h now s payment).err = none) ∧
    ((validatePaymentInternal x h now s payment).err = none →
      firstFailing x h now s payment = none ∨
      (firstFailing x h now s payment = some .amountPolicy ∧
        ∃ r st, h.storage.Get s payment.channelKey = .ok r ∧
          h.amountValidator.Validate ⟨payment.amount - r.AuthorizedAmount⟩ = some st ∧
          st.code = Code.OK)) := by
  cases hget : h.storage.Get s payment.channelKey with
  | error e =>
    simp [firstFailing, stageOrder, List.find?, stageFails, validatePaymentInternal, hget,
      Errorf, Status.Err]
  | ok r =>
    by_cases hopen : r.State = Open
    · rcases hs : getSignerAddressFromPayment x h payment with ⟨res, l⟩
      cases res with
      | error e =>
        simp [firstFailing, stageOrder, List.find?, stageFails, validatePaymentInternal, hget,
          hopen, hs, Errorf, Status.Err]
      | ok a =>
        by_cases hsender : a = r.Sender
        · by_cases hexp : r.Expiration.nanos < now.nanos
          · simp [firstFailing, stageOrder, List.find?, stageFails, validatePaymentInternal,
              hget, hopen, hs, hsender, hexp, Time.Before, Errorf, Status.Err]
          · by_cases hb : r.FullAmount < payment.amount
            · simp [firstFailing, stageOrder, List.find?, stageFails, validatePaymentInternal,
                hget, hopen, hs, hsender, hexp, hb, cmp_neg_iff, Time.Before, Errorf,
                Status.Err]
            · cases hv : h.amountValidator.Validate ⟨payment.amount - r.AuthorizedAmount⟩ with
              | some st =>
                by_cases hok : st.code = Code.OK
                · simp [firstFailing, stageOrder, List.find?, stageFails,
                    validatePaymentInternal, hget, hopen, hs, hsender, hexp, hb, hv, hok,
                    cmp_neg_iff, Time.Before, Errorf, Status.Err]
                · simp [firstFailing, stageOrder, List.find?, stageFails,
                    validatePaymentInternal, hget, hopen, hs, hsender, hexp, hb, hv, hok,
                    cmp_neg_iff, Time.Before, Errorf, Status.Err]
              | none =>
                rcases hc : h.storage.CompareAndSwap s payment.channelKey r
                    (newChannelState r payment) with ⟨ce, s'⟩
                have hc' := hc
                unfold newChannelState at hc'
                simp only [hopen] at hc'
                cases ce with
                | some e =>
                  simp [firstFailing, stageOrder, List.find?, stageFails,
                    validatePaymentInternal, hget, hopen, hs, hsender, hexp, hb, hv, hc, hc',
                    cmp_neg_iff, Time.Before, Errorf, Status.Err]
                | none =>
                  simp [firstFailing, stageOrder, List.find?, stageFails,
                    validatePaymentInternal, hget, hopen, hs, hsender, hexp, hb, hv, hc, hc',
                    cmp_neg_iff, Time.Before, Errorf, Status.Err]
        · simp [firstFailing, stageOrder, List.find?, stageFails, validatePaymentInternal, hget,
            hopen, hs, hsender, Errorf, Status.Err]
    · simp [firstFailing, stageOrder, List.find?, stageFails, validatePaymentInternal, hget,
        hopen, Errorf, Status.Err]

/-- C11, concrete runs: one payment stopped at each stage in turn, and one that passes. -/
theorem first_failing_stage_decides_witness :
    (firstFailing testExternals (testHandler acceptAll) ⟨0⟩ downStore (testPayment 60)
        = some .lookup ∧
      (validatePaymentInternal testExternals (testHandler acceptAll) ⟨0⟩ downStore
        (testPayment 60)).err = some ⟨.FailedPrecondition, .channelNotFound testKey⟩) ∧
    (firstFailing testExternals (testHandler acceptAll) ⟨0⟩ closedStore ⟨testKey, 60, []⟩
        = some .state ∧
      (validatePaymentInternal testExternals (testHandler acceptAll) ⟨0⟩ closedStore
        ⟨testKey, 60, []⟩).err = some ⟨.FailedPrecondition, .channelNotOpened testKey⟩) ∧
    (firstFailing testExternals (testHandler acceptAll) ⟨0⟩ testStore ⟨testKey, 60, []⟩
        = some .signatureRecovery ∧
      (validatePaymentInternal testExternals (testHandler acceptAll) ⟨0⟩ testStore
        ⟨testKey, 60, []⟩).err = some ⟨.Unauthenticated, .signatureNotValid⟩) ∧
    (firstFailing testExternals (testHandler acceptAll) ⟨3601⟩ testStore
        ⟨testKey, 150, [0xBB]⟩ = some .senderMatch ∧
      (validatePaymentInternal testExternals (testHandler acceptAll) ⟨3601⟩ testStore
        ⟨testKey, 150, [0xBB]⟩).err = some ⟨.Unauthenticated, .notSignedBySender⟩) ∧
    (firstFailing testExternals (testHandler acceptAll) ⟨3601⟩ testStore (testPayment 150)
        = some .expiration ∧
      (validatePaymentInternal testExternals (testHandler acceptAll) ⟨3601⟩ testStore
        (testPayment 150)).err = some ⟨.FailedPrecondition, .channelExpired ⟨3600⟩⟩) ∧
    (firstFailing testExternals (testHandler rejectNegative) ⟨0⟩ testStore (testPayment 150)
        = some .budget ∧
      (validatePaymentInternal testExternals (testHandler rejectNegative) ⟨0⟩ testStore
        (testPayment 150)).err = some ⟨.FailedPrecondition, .notEnoughTokens 100 150⟩) ∧
    (firstFailing testExternals (testHandler rejectNegative) ⟨0⟩ testStore (testPayment 30)
        = some .amountPolicy ∧
      (validatePaymentInternal testExternals (testHandler rejectNegative) ⟨0⟩ testStore
        (testPayment 30)).err = some ⟨.Unauthenticated, .text "negative income"⟩) ∧
    (firstFailing testExternals (racingHandler outage) ⟨0⟩ testStore (testPayment 60)
        = some .commit ∧
      (validatePaymentInternal testExternals (racingHandler outage) ⟨0⟩ testStore
        (testPayment 60)).err = some ⟨.Internal, .unableToStore⟩) ∧
    (firstFailing testExternals (testHandler acceptAll) ⟨0⟩ testStore (testPayment 60)
        = none ∧
      (validatePaymentInternal testExternals (testHandler acceptAll) ⟨0⟩ testStore
        (testPayment 60)).err = none) :=
  ⟨⟨by decide, by decide⟩, ⟨by decide, by decide⟩, ⟨by decide, by decide⟩,
    ⟨by decide, by decide⟩, ⟨by decide, by decide⟩, ⟨by decide, by decide⟩,
    ⟨by decide, by decide⟩,
    ⟨by decide,
      (first_failing_stage_decides testExternals (racingHandler outage) ⟨0⟩ testStore
        (testPayment 60)).2.2.2.2.2.2.2.1 (by decide)⟩,
    ⟨by decide,
      (first_failing_stage_decides testExternals (testHandler acceptAll) ⟨0⟩ testStore
        (testPayment 60)).2.2.2.2.2.2.2.2.1 (by decide)⟩⟩

/-- C11, counterexample: the payment of 60 on the test channel passes the lookup, state,
signature, sender, expiration and budget checks; the amount policy answers its income with
a status of code `OK`, and the `CompareAndSwap` of the commit would return an error, the
store having become unreachable. The call returns success: neither the policy's status nor
`Internal`. -/
theorem success_with_failing_stage :
    okHandlerOnFailingStore.storage.Get testStore (testPayment 60).channelKey
      = .ok testChannel ∧
    okHandlerOnFailingStore.amountValidator.Validate
      ⟨(testPayment 60).amount - testChannel.AuthorizedAmount⟩
      = some ⟨.OK, .text "accepted"⟩ ∧
    okHandlerOnFailingStore.storage.CompareAndSwap testStore (testPayment 60).channelKey
      testChannel (newChannelState testChannel (testPayment 60))
      = (some .unavailable, outage testStore) ∧
    firstFailing testExternals okHandlerOnFailingStore ⟨0⟩ testStore (testPayment 60)
      = some .amountPolicy ∧
    stageFails testExternals okHandlerOnFailingStore ⟨0⟩ testStore (testPayment 60) .commit
      = true ∧
    (validatePaymentInternal testExternals okHandlerOnFailingStore ⟨0⟩ testStore
      (testPayment 60)).err = none :=
  ⟨rfl, rfl, rfl, by decide, by decide, by decide⟩

end Blockchain
